import Mathlib

/-
Verification of the pix2vid spatiotemporal CO2 proxy model (pix2vid.py).

The Python source is shallowly embedded below: Keras layers are modelled by
their shape-transfer functions (the per-sample tensor shapes they produce),
elementwise activations by exact real-valued functions, and the data pipeline
(numpy array manipulations, MinMaxScaler, noise injection, augmentation,
file loading) by executable functions over rationals and lists.
-/

namespace Pix2Vid

/-! ### Configuration constants (SpatiotemporalCO2.__init__) -/

def n_samples : Nat := 1000
def x_channels : Nat := 4
def y_channels : Nat := 2
def timesteps : Nat := 60
def dim : Nat := 64
def t_samples : List Int := [0, 6, 12, 18, 24, 30, 36, 42, 48, 54, 60]
def cnn_filters : List Nat := [64, 128, 256]
def rnn_filters : List Nat := [256, 128, 64]

/-! ### Shape-level embedding of the Keras layers used by the model.

A per-sample activation shape is (height, width, channels); after the
explicit time axis is inserted it is (time, height, width, channels).
Each definition is the shape-transfer function of the corresponding layer
call in pix2vid.py with its configuration there (kernel 3, same padding,
pool 2, stride 2). -/

structure Shape3 where
  h : Nat
  w : Nat
  c : Nat
deriving DecidableEq, Repr

structure Shape4 where
  t : Nat
  h : Nat
  w : Nat
  c : Nat
deriving DecidableEq, Repr

/-- SeparableConv2D(filt, kern, padding='same'): spatial dims kept, channels become filt. -/
def separableConv2D_shape (filt : Nat) (s : Shape3) : Shape3 := ⟨s.h, s.w, filt⟩

/-- SqueezeExcite.compute_output_shape returns the input shape unchanged. -/
def squeezeExcite_shape (s : Shape3) : Shape3 := s

/-- GroupNormalization(groups=-1) preserves shape. -/
def groupNorm_shape (s : Shape3) : Shape3 := s

/-- PReLU() preserves shape. -/
def prelu_shape (s : Shape3) : Shape3 := s

/-- MaxPooling2D() with default pool (2,2), stride (2,2), valid padding. -/
def maxPooling2D_shape (s : Shape3) : Shape3 := ⟨(s.h - 2) / 2 + 1, (s.w - 2) / 2 + 1, s.c⟩

/-- SpatialDropout2D preserves shape. -/
def spatialDropout2D_shape (s : Shape3) : Shape3 := s

/-- LeakyReLU preserves shape. -/
def leakyReLU_shape (s : Shape3) : Shape3 := s

/-- Activation('sigmoid') preserves shape. -/
def sigmoidAct_shape (s : Shape3) : Shape3 := s

/-- tf.expand_dims(x, 1): insert a singleton time axis after the batch axis. -/
def expand_dims1_shape (s : Shape3) : Shape4 := ⟨1, s.h, s.w, s.c⟩

/-- ConvLSTM2D(filt, kern, padding='same') with default return_sequences=False:
consumes the time axis, keeps spatial dims, channels become filt. -/
def convLSTM2D_shape (filt : Nat) (s : Shape4) : Shape3 := ⟨s.h, s.w, filt⟩

/-- Conv2DTranspose(filt, kern, padding='same', strides=2): doubles spatial dims. -/
def conv2DTranspose_shape (filt : Nat) (s : Shape3) : Shape3 := ⟨2 * s.h, 2 * s.w, filt⟩

/-- Concatenate() (last axis) of two (h,w,c) tensors. -/
def concatChannels_shape (a b : Shape3) : Shape3 := ⟨a.h, a.w, a.c + b.c⟩

/-- Conv2D(filt, kern, padding='same'). -/
def conv2D_shape (filt : Nat) (s : Shape3) : Shape3 := ⟨s.h, s.w, filt⟩

/-- Concatenate(axis=1): concatenation along the time axis. -/
def concatTime_shape (a b : Shape4) : Shape4 := ⟨a.t + b.t, a.h, a.w, a.c⟩

/-- encoder_layer: SeparableConv2D → SqueezeExcite → GroupNorm → PReLU →
MaxPooling2D → SpatialDropout2D (pix2vid.py lines 104-111). -/
def encoder_layer_shape (filt : Nat) (s : Shape3) : Shape3 :=
  spatialDropout2D_shape (maxPooling2D_shape (prelu_shape (groupNorm_shape
    (squeezeExcite_shape (separableConv2D_shape filt s)))))

/-- recurrent_step inside recurrent_decoder: ConvLSTM2D → GroupNorm → LeakyReLU →
Conv2DTranspose(stride 2) → SpatialDropout2D → Concatenate with skip residual →
Conv2D → sigmoid → expand_dims (pix2vid.py lines 115-125). -/
def recurrent_step_shape (filt : Nat) (inp : Shape4) (res : Shape3) : Shape4 :=
  expand_dims1_shape (sigmoidAct_shape (conv2D_shape filt (concatChannels_shape
    (spatialDropout2D_shape (conv2DTranspose_shape filt (leakyReLU_shape
      (groupNorm_shape (convLSTM2D_shape filt inp))))) res)))

/-- recurrent_last inside recurrent_decoder: as recurrent_step but without the
skip concatenation and with Conv2D mapping to y_channels (lines 126-135). -/
def recurrent_last_shape (filt ych : Nat) (inp : Shape4) : Shape4 :=
  expand_dims1_shape (sigmoidAct_shape (conv2D_shape ych
    (spatialDropout2D_shape (conv2DTranspose_shape filt (leakyReLU_shape
      (groupNorm_shape (convLSTM2D_shape filt inp)))))))

/-- recurrent_decoder (lines 113-142): expand z, two recurrent_step stages with
residuals [z2, z1], one recurrent_last stage, then optional concatenation of
the new frame after the previous timesteps along the time axis. -/
def recurrent_decoder_shape (z : Shape3) (res0 res1 : Shape3)
    (previous_timestep : Option Shape4) : Shape4 :=
  let s0 := expand_dims1_shape z
  let s1 := recurrent_step_shape (rnn_filters.getD 0 0) s0 res0
  let s2 := recurrent_step_shape (rnn_filters.getD 1 0) s1 res1
  let s3 := recurrent_last_shape (rnn_filters.getD 2 0) y_channels s2
  match previous_timestep with
  | none => s3
  | some p => concatTime_shape p s3

/-- make_model (lines 144-163): three encoder stages then eleven
recurrent_decoder invocations chained through previous_timestep. -/
def make_model_shape (inp : Shape3) : Shape4 :=
  let z1 := encoder_layer_shape (cnn_filters.getD 0 0) inp
  let z2 := encoder_layer_shape (cnn_filters.getD 1 0) z1
  let z3 := encoder_layer_shape (cnn_filters.getD 2 0) z2
  let t0 := recurrent_decoder_shape z3 z2 z1 none
  let t1 := recurrent_decoder_shape z3 z2 z1 (some t0)
  let t2 := recurrent_decoder_shape z3 z2 z1 (some t1)
  let t3 := recurrent_decoder_shape z3 z2 z1 (some t2)
  let t4 := recurrent_decoder_shape z3 z2 z1 (some t3)
  let t5 := recurrent_decoder_shape z3 z2 z1 (some t4)
  let t6 := recurrent_decoder_shape z3 z2 z1 (some t5)
  let t7 := recurrent_decoder_shape z3 z2 z1 (some t6)
  let t8 := recurrent_decoder_shape z3 z2 z1 (some t7)
  let t9 := recurrent_decoder_shape z3 z2 z1 (some t8)
  let t10 := recurrent_decoder_shape z3 z2 z1 (some t9)
  t10

/-- The model maps a batch of per-sample shapes; the batch axis passes through. -/
def make_model_batch_shape (n : Nat) (inp : Shape3) : Nat × Shape4 :=
  (n, make_model_shape inp)

/-! ### Timestep subsampling (process_data, line 214) -/

/-- ts = np.array(self.t_samples); ts[1:] -= 1 : the first entry is kept,
every later entry is decremented by one. -/
def shift_t_samples : List Int → List Int
  | [] => []
  | a :: rest => a :: rest.map (fun x => x - 1)

/-! ### SqueezeExcite bottleneck width (C10) -/

/-- SqueezeExcite.__init__(self, ratio=4, **kwargs) stores its first positional
argument as the reduction ratio. -/
def squeezeExcite_init_ratio (firstPositional : Nat) : Nat := firstPositional

/-- SqueezeExcite.build: excite1 = Dense(channels // ratio) where channels is the
last input dimension. -/
def squeezeExcite_excite1_units (channels ratio : Nat) : Nat := channels / ratio

/-- In encoder_layer the SqueezeExcite layer is constructed as SqueezeExcite(filt)
and applied to the output of SeparableConv2D(filt, ...), so its input has filt
channels and its ratio is filt. -/
def encoder_layer_excite1_units (filt : Nat) (s : Shape3) : Nat :=
  squeezeExcite_excite1_units (separableConv2D_shape filt s).c
    (squeezeExcite_init_ratio filt)

/-! ### Value-level embedding of the activations and the decoder rollout.

The learned layers up to each final Activation('sigmoid') compute some
real-valued pre-activation depending on the weights and the model input; the
rollout structure and the final activation are embedded exactly, with the
pre-activations left as parameters. -/

/-- The Keras sigmoid activation. -/
noncomputable def sigmoid (x : ℝ) : ℝ := 1 / (1 + Real.exp (-x))

/-- The Keras relu activation. -/
def relu (x : ℝ) : ℝ := max x 0

/-- A per-timestep frame: value indexed by (row, col, channel). -/
abbrev Frame : Type := Nat → Nat → Nat → ℝ

/-- The value content of recurrent_decoder (lines 113-142): the frame emitted
for this timestep is an elementwise sigmoid of the pre-activation computed by
the layer stack, and when previous_timestep is given the new frame is
concatenated after it along the time axis. -/
noncomputable def recurrent_decoder_frames (preAct : Nat → Nat → Nat → ℝ) :
    Option (List Frame) → List Frame
  | none => [fun i j c => sigmoid (preAct i j c)]
  | some previous => previous ++ [fun i j c => sigmoid (preAct i j c)]

/-- The value content of make_model (lines 149-159): eleven chained
recurrent_decoder invocations, step k seeing pre-activation preAct k. -/
noncomputable def make_model_frames (preAct : Nat → Nat → Nat → Nat → ℝ) :
    List Frame :=
  let t0 := recurrent_decoder_frames (preAct 0) none
  let t1 := recurrent_decoder_frames (preAct 1) (some t0)
  let t2 := recurrent_decoder_frames (preAct 2) (some t1)
  let t3 := recurrent_decoder_frames (preAct 3) (some t2)
  let t4 := recurrent_decoder_frames (preAct 4) (some t3)
  let t5 := recurrent_decoder_frames (preAct 5) (some t4)
  let t6 := recurrent_decoder_frames (preAct 6) (some t5)
  let t7 := recurrent_decoder_frames (preAct 7) (some t6)
  let t8 := recurrent_decoder_frames (preAct 8) (some t7)
  let t9 := recurrent_decoder_frames (preAct 9) (some t8)
  let t10 := recurrent_decoder_frames (preAct 10) (some t9)
  t10

/-! ### SqueezeExcite.call, value level (pix2vid.py lines 416-434) -/

/-- GlobalAveragePooling2D: mean of each channel over both spatial dims. -/
noncomputable def globalAveragePooling2D (H W : Nat) (inp : Nat → Nat → Nat → ℝ)
    (c : Nat) : ℝ :=
  (∑ i ∈ Finset.range H, ∑ j ∈ Finset.range W, inp i j c) / (H * W)

/-- Dense(units, activation=act): affine map followed by the activation. -/
noncomputable def dense (act : ℝ → ℝ) (weight : Nat → Nat → ℝ) (bias : Nat → ℝ)
    (inDim : Nat) (x : Nat → ℝ) (o : Nat) : ℝ :=
  act (bias o + ∑ i ∈ Finset.range inDim, weight o i * x i)

/-- The channel gate of SqueezeExcite.call: squeeze (global average pool) →
excite1 (Dense(channels // ratio, relu)) → excite2 (Dense(channels, sigmoid)). -/
noncomputable def squeezeExcite_gate (H W channels ratio : Nat)
    (w1 : Nat → Nat → ℝ) (b1 : Nat → ℝ) (w2 : Nat → Nat → ℝ) (b2 : Nat → ℝ)
    (inp : Nat → Nat → Nat → ℝ) (c : Nat) : ℝ :=
  dense sigmoid w2 b2 (channels / ratio)
    (dense relu w1 b1 channels (globalAveragePooling2D H W inp)) c

/-- SqueezeExcite.call: the gate is reshaped to (1,1,channels), multiplied with
the inputs, and the product is added back to the inputs. -/
noncomputable def squeezeExcite_call (H W channels ratio : Nat)
    (w1 : Nat → Nat → ℝ) (b1 : Nat → ℝ) (w2 : Nat → Nat → ℝ) (b2 : Nat → ℝ)
    (inp : Nat → Nat → Nat → ℝ) : Nat → Nat → Nat → ℝ :=
  let se := squeezeExcite_gate H W channels ratio w1 b1 w2 b2 inp
  let scaled_inputs := fun i j c => inp i j c * se c
  fun i j c => inp i j c + scaled_inputs i j c

/-! ### MinMaxScaler (sklearn) over rational data.

MinMaxScaler().fit_transform(M) for a 2-d array M scales each column
independently: x ↦ (x - colMin) / (colMax - colMin), a zero range being
replaced by 1 (sklearn handle_zeros_in_scale), so a constant column maps
to 0. Data is modelled over ℚ so everything is executable. -/

/-- Minimum of a list (0 for the empty list, which never occurs in use). -/
def listMin : List ℚ → ℚ
  | [] => 0
  | a :: rest => rest.foldl min a

/-- Maximum of a list (0 for the empty list, which never occurs in use). -/
def listMax : List ℚ → ℚ
  | [] => 0
  | a :: rest => rest.foldl max a

/-- Scale one value by the min-max parameters fitted on the column col. -/
def scale_val (col : List ℚ) (x : ℚ) : ℚ :=
  (x - listMin col) /
    (if listMax col - listMin col = 0 then 1 else listMax col - listMin col)

/-! ### process_data feature and target normalization (lines 202-211).

The static inputs x have shape (num, height, width, channels) and are
reshaped to (num*height*width, channels) before fitting: each scaler column
is one input channel, its population all pixels of all samples.

The targets y have shape (num, tsteps, height, width, channels) and are
reshaped to (num*tsteps, -1) = (num*tsteps, height*width*channels) before
fitting: each scaler column is one (row, col, channel) triple, its
population the values at that fixed pixel position across all samples and
timesteps. Arrays are modelled as functions from indices, with the dims
passed alongside; reshape row-major enumeration is written with nested
List.range blocks, which enumerates the same multiset in the same order. -/

/-- Column c of x.reshape(num*height*width, channels): every pixel of
channel c, samples enumerated row-major. -/
def x_col_population (x : Nat → Nat → Nat → Nat → ℚ) (num height width : Nat)
    (c : Nat) : List ℚ :=
  (List.range num).flatMap (fun n =>
    (List.range height).flatMap (fun i =>
      (List.range width).map (fun j => x n i j c)))

/-- X normalization in process_data: each channel is min-max scaled over its
full flattened pixel population. -/
def x_norm (x : Nat → Nat → Nat → Nat → ℚ) (num height width : Nat) :
    Nat → Nat → Nat → Nat → ℚ :=
  fun n i j c => scale_val (x_col_population x num height width c) (x n i j c)

/-- Column (i, j, c) of y.reshape(num*tsteps, -1): the values at pixel (i, j)
of channel c across all samples and timesteps. -/
def y_col_population (y : Nat → Nat → Nat → Nat → Nat → ℚ) (num tsteps : Nat)
    (i j c : Nat) : List ℚ :=
  (List.range num).flatMap (fun n =>
    (List.range tsteps).map (fun t => y n t i j c))

/-- y normalization in process_data: the scaler is fitted on the 2-d view
(num*tsteps, height*width*channels), so each (pixel, channel) position is
scaled by its own min-max across samples and timesteps. -/
def y_norm (y : Nat → Nat → Nat → Nat → Nat → ℚ) (num tsteps : Nat) :
    Nat → Nat → Nat → Nat → Nat → ℚ :=
  fun n t i j c => scale_val (y_col_population y num tsteps i j c) (y n t i j c)

/-- Stated from the spec for comparison with y_norm: per-channel min-max
scaling of the targets, fitted across the full flattened pixel population
(all samples, timesteps and pixel positions of channel c). -/
def y_channel_population (y : Nat → Nat → Nat → Nat → Nat → ℚ)
    (num tsteps height width : Nat) (c : Nat) : List ℚ :=
  (List.range num).flatMap (fun n =>
    (List.range tsteps).flatMap (fun t =>
      (List.range height).flatMap (fun i =>
        (List.range width).map (fun j => y n t i j c))))

/-- Stated from the spec for comparison with y_norm: target normalization as
per-channel min-max over the full flattened pixel population. -/
def y_norm_spec_per_channel (y : Nat → Nat → Nat → Nat → Nat → ℚ)
    (num tsteps height width : Nat) : Nat → Nat → Nat → Nat → Nat → ℚ :=
  fun n t i j c =>
    scale_val (y_channel_population y num tsteps height width c) (y n t i j c)

/-! ### apply_noise (lines 180-189).

random_noise is stochastic; it is modelled as an abstract family rn taking
the sample index and channel index of the call site (each (i, c) slice gets
its own independent call), the mode string, the variance argument (some var
for the gaussian/speckle branch, none for the other branch where var is not
passed), and the 2-d slice. The Wells channel (last channel, index
channels-1) is copied through from the input. -/

def apply_noise (channels : Nat) (noise_type : String) (var : ℚ)
    (rn : Nat → Nat → String → Option ℚ → (Nat → Nat → ℚ) → (Nat → Nat → ℚ))
    (image_array : Nat → Nat → Nat → Nat → ℚ) : Nat → Nat → Nat → Nat → ℚ :=
  fun i r s c =>
    if c = channels - 1 then image_array i r s c
    else if noise_type = "gaussian" ∨ noise_type = "speckle" then
      rn i c noise_type (some var) (fun p q => image_array i p q c) r s
    else
      rn i c noise_type none (fun p q => image_array i p q c) r s

/-! ### Augmentation (process_data lines 192-198).

np.rot90(A, k, axes=(a,b)) rotates in the plane of the two spatial axes and
leaves the other axes alone; rotating the stacked array with axes (1,2)
(x) or (2,3) (y) equals rotating every sample in its (height, width) plane.
The spatial grid is the fixed square dim×dim (64×64). -/

/-- One counterclockwise quarter turn of a d×d image: out[i][j] = a[j][d-1-i]. -/
def rot90 (d : Nat) (a : Nat → Nat → ℚ) : Nat → Nat → ℚ :=
  fun i j => a j (d - 1 - i)

/-- np.rot90 with count k: k quarter turns. -/
def rot90k (d k : Nat) (a : Nat → Nat → ℚ) : Nat → Nat → ℚ :=
  (rot90 d)^[k] a

/-- A static-input sample rotated in its spatial plane (axes (1,2) of the
stacked (N,H,W,C) array), every channel alike. -/
def rot90k_x (d k : Nat) (a : Nat → Nat → Nat → ℚ) : Nat → Nat → Nat → ℚ :=
  fun i j c => rot90k d k (fun p q => a p q c) i j

/-- A target sample rotated in its spatial plane (axes (2,3) of the stacked
(N,T,H,W,C) array), every timestep and channel alike. -/
def rot90k_y (d k : Nat) (a : Nat → Nat → Nat → Nat → ℚ) :
    Nat → Nat → Nat → Nat → ℚ :=
  fun t i j c => rot90k d k (fun p q => a t p q c) i j

/-- Augmentation of the inputs: x = concatenate([X_data, rot90(X_data, k)], axis=0). -/
def augment_x (d k : Nat) (xs : List (Nat → Nat → Nat → ℚ)) :
    List (Nat → Nat → Nat → ℚ) :=
  xs ++ xs.map (rot90k_x d k)

/-- Augmentation of the targets: y = concatenate([y_data, rot90(y_data, k)], axis=0). -/
def augment_y (d k : Nat) (ys : List (Nat → Nat → Nat → Nat → ℚ)) :
    List (Nat → Nat → Nat → Nat → ℚ) :=
  ys ++ ys.map (rot90k_y d k)

/-- The source pixel position a rotated sample reads for output position
(i, j): one quarter turn reads (j, d-1-i). -/
def rotSource (d : Nat) : Nat × Nat → Nat × Nat :=
  fun p => (p.2, d - 1 - p.1)

/-! ### load_data (lines 170-178).

The on-disk per-sample files are modelled as partial maps from the sample
index to the stored array; np.load on a missing path raises, modelled as
Except.error carrying the offending index. load_data pre-allocates zero
arrays and then overwrites entry i with the two loaded files, in index
order, the X file first. -/

/-- np.load of the file for sample index i: error when the file is missing. -/
def np_load {A : Type} (files : Nat → Option A) (i : Nat) : Except Nat A :=
  match files i with
  | some a => Except.ok a
  | none => Except.error i

/-- The load loop over a list of sample indices: for each i, load X then y;
the first missing file aborts the whole load. -/
def load_samples {A B : Type} (xfiles : Nat → Option A) (yfiles : Nat → Option B) :
    List Nat → Except Nat (List (A × B))
  | [] => Except.ok []
  | i :: rest =>
    match np_load xfiles i with
    | Except.error e => Except.error e
    | Except.ok xi =>
      match np_load yfiles i with
      | Except.error e => Except.error e
      | Except.ok yi =>
        match load_samples xfiles yfiles rest with
        | Except.error e => Except.error e
        | Except.ok tail => Except.ok ((xi, yi) :: tail)

/-- load_data: iterate the load loop over range(n_samples). -/
def load_data {A B : Type} (n : Nat) (xfiles : Nat → Option A)
    (yfiles : Nat → Option B) : Except Nat (List (A × B)) :=
  load_samples xfiles yfiles (List.range n)

/-! ### SpatiotemporalCO2.__init__ attribute semantics (lines 50-88, C9).

Python attribute lookup on self finds either an instance attribute already
assigned or a class-body attribute (a method); otherwise it raises
AttributeError. __init__ is a straight-line sequence of assignments; the
only attribute read of self is self.custom_loss on line 78. -/

/-- The names bound in the class body of SpatiotemporalCO2 (its methods),
plus the SqueezeExcite utility methods are irrelevant to this class. -/
def spatiotemporalCO2_class_attrs : List String :=
  ["__init__", "check_tf", "encoder_layer", "recurrent_decoder", "make_model",
   "load_data", "apply_noise", "process_data", "load_preprocessed_xy_train_test",
   "plot_features", "plot_targets", "plot_data", "plot_single_results",
   "latent_space", "feature_map_animation", "cumulative_co2"]

/-- One statement of __init__: a plain assignment self.name = <literal or
fresh object>, or an assignment whose right side reads an attribute of self. -/
inductive InitStmt
  | assign (target : String)
  | assignFromSelf (target source : String)
deriving DecidableEq

/-- The statements of SpatiotemporalCO2.__init__ in source order
(K.clear_session() has no attribute effect and is omitted). -/
def init_stmts : List InitStmt :=
  [.assign "input_features_dir", .assign "output_targets_dir",
   .assign "x_data_labels", .assign "y_data_labels",
   .assign "x_cmaps", .assign "y_cmaps", .assign "err_cmap",
   .assign "latent_cmap", .assign "return_data", .assign "save_model",
   .assign "n_samples", .assign "x_channels", .assign "y_channels",
   .assign "timesteps", .assign "dim", .assign "test_size", .assign "t_samples",
   .assign "cnn_filters", .assign "rnn_filters", .assign "conv_groups",
   .assign "rnn_dropout", .assign "up_interp",
   .assign "optimizer", .assignFromSelf "criterion" "custom_loss",
   .assign "L1L2_split", .assign "ridge_alpha", .assign "regular",
   .assign "leaky_slope", .assign "valid_split",
   .assign "num_epochs", .assign "batch_size", .assign "lr_decay",
   .assign "verbose"]

/-- Run __init__: thread the set of instance attributes assigned so far; a
read of an attribute bound neither on the instance nor in the class body
raises AttributeError naming the attribute. -/
def run_init (classAttrs : List String) :
    List InitStmt → List String → Except String (List String)
  | [], attrs => Except.ok attrs
  | .assign t :: rest, attrs => run_init classAttrs rest (t :: attrs)
  | .assignFromSelf t s :: rest, attrs =>
    if s ∈ attrs ∨ s ∈ classAttrs then run_init classAttrs rest (t :: attrs)
    else Except.error ("AttributeError: " ++ s)

/-- Constructing SpatiotemporalCO2(): run __init__ on a fresh instance. -/
def spatiotemporalCO2_new : Except String (List String) :=
  run_init spatiotemporalCO2_class_attrs init_stmts []

/-! ### The training criterion (C5).

__init__ sets criterion = self.custom_loss with L1L2_split = 0.33 and
ridge_alpha = 0.66, but no custom_loss is defined in this source file. -/

/-- Mean absolute error of two equal-length flattened tensors. -/
def mae (ytrue ypred : List ℚ) : ℚ :=
  (((ytrue.zip ypred).map (fun p => |p.1 - p.2|)).sum) / ytrue.length

/-- Mean squared error of two equal-length flattened tensors. -/
def mse (ytrue ypred : List ℚ) : ℚ :=
  (((ytrue.zip ypred).map (fun p => (p.1 - p.2) ^ 2)).sum) / ytrue.length

/-- Modelled from the spec: the body of SpatiotemporalCO2.custom_loss is
absent from this source file (only the reference self.custom_loss on line 78
and the attributes L1L2_split and ridge_alpha remain); per spec §4.4 the
criterion is a convex blend of mean-absolute-error and mean-squared-error
with configurable blend fraction, optionally augmented with an L2
(ridge-style) weight penalty. -/
def custom_loss (L1L2_split ridge_alpha : ℚ) (weights : List ℚ)
    (ytrue ypred : List ℚ) : ℚ :=
  L1L2_split * mae ytrue ypred + (1 - L1L2_split) * mse ytrue ypred +
    ridge_alpha * (weights.map (fun w => w ^ 2)).sum

/-- process_data applies the same rotation count to inputs and targets
(lines 194-195 both use k=rotations). -/
def process_augment (d rotations : Nat) (xs : List (Nat → Nat → Nat → ℚ))
    (ys : List (Nat → Nat → Nat → Nat → ℚ)) :
    List (Nat → Nat → Nat → ℚ) × List (Nat → Nat → Nat → Nat → ℚ) :=
  (augment_x d rotations xs, augment_y d rotations ys)

/-! ### Helper lemmas -/

theorem sigmoid_nonneg (x : ℝ) : 0 ≤ sigmoid x := by
  unfold sigmoid
  have h : 0 < 1 + Real.exp (-x) := by positivity
  positivity

theorem sigmoid_le_one (x : ℝ) : sigmoid x ≤ 1 := by
  unfold sigmoid
  have h : 0 < 1 + Real.exp (-x) := by positivity
  rw [div_le_one h]
  have := Real.exp_pos (-x)
  linarith

theorem foldl_min_le_init (a : ℚ) (l : List ℚ) : l.foldl min a ≤ a := by
  induction l generalizing a with
  | nil => exact le_refl a
  | cons b t ih =>
    calc (b :: t).foldl min a = t.foldl min (min a b) := rfl
    _ ≤ min a b := ih (min a b)
    _ ≤ a := min_le_left a b

theorem foldl_min_le_of_mem (a x : ℚ) (l : List ℚ) (hx : x ∈ l) :
    l.foldl min a ≤ x := by
  induction l generalizing a with
  | nil => cases hx
  | cons b t ih =>
    rcases List.mem_cons.1 hx with h | h
    · subst h
      calc t.foldl min (min a x) ≤ min a x := foldl_min_le_init (min a x) t
      _ ≤ x := min_le_right a x
    · exact ih (min a b) h

theorem foldl_min_mem (a : ℚ) (l : List ℚ) : l.foldl min a = a ∨ l.foldl min a ∈ l := by
  induction l generalizing a with
  | nil => exact Or.inl rfl
  | cons b t ih =>
    have hstep : (b :: t).foldl min a = t.foldl min (min a b) := rfl
    rcases ih (min a b) with h | h
    · rcases min_choice a b with hc | hc
      · exact Or.inl (by rw [hstep, h, hc])
      · exact Or.inr (by rw [hstep, h, hc]; exact List.mem_cons_self b t)
    · exact Or.inr (by rw [hstep]; exact List.mem_cons_of_mem b h)

theorem init_le_foldl_max (a : ℚ) (l : List ℚ) : a ≤ l.foldl max a := by
  induction l generalizing a with
  | nil => exact le_refl a
  | cons b t ih =>
    calc a ≤ max a b := le_max_left a b
    _ ≤ t.foldl max (max a b) := ih (max a b)
    _ = (b :: t).foldl max a := rfl

theorem mem_le_foldl_max (a x : ℚ) (l : List ℚ) (hx : x ∈ l) :
    x ≤ l.foldl max a := by
  induction l generalizing a with
  | nil => cases hx
  | cons b t ih =>
    rcases List.mem_cons.1 hx with h | h
    · subst h
      calc x ≤ max a x := le_max_right a x
      _ ≤ t.foldl max (max a x) := init_le_foldl_max (max a x) t
    · exact ih (max a b) h

theorem foldl_max_mem (a : ℚ) (l : List ℚ) : l.foldl max a = a ∨ l.foldl max a ∈ l := by
  induction l generalizing a with
  | nil => exact Or.inl rfl
  | cons b t ih =>
    have hstep : (b :: t).foldl max a = t.foldl max (max a b) := rfl
    rcases ih (max a b) with h | h
    · rcases max_choice a b with hc | hc
      · exact Or.inl (by rw [hstep, h, hc])
      · exact Or.inr (by rw [hstep, h, hc]; exact List.mem_cons_self b t)
    · exact Or.inr (by rw [hstep]; exact List.mem_cons_of_mem b h)

theorem listMin_le_of_mem (x : ℚ) (l : List ℚ) (hx : x ∈ l) : listMin l ≤ x := by
  cases l with
  | nil => cases hx
  | cons a t =>
    rcases List.mem_cons.1 hx with h | h
    · subst h; exact foldl_min_le_init x t
    · exact foldl_min_le_of_mem a x t h

theorem le_listMax_of_mem (x : ℚ) (l : List ℚ) (hx : x ∈ l) : x ≤ listMax l := by
  cases l with
  | nil => cases hx
  | cons a t =>
    rcases List.mem_cons.1 hx with h | h
    · subst h; exact init_le_foldl_max x t
    · exact mem_le_foldl_max a x t h

theorem listMin_mem (l : List ℚ) (h : l ≠ []) : listMin l ∈ l := by
  cases l with
  | nil => exact absurd rfl h
  | cons a t =>
    have hstep : listMin (a :: t) = t.foldl min a := rfl
    rcases foldl_min_mem a t with h1 | h1
    · rw [hstep, h1]; exact List.mem_cons_self a t
    · rw [hstep]; exact List.mem_cons_of_mem a h1

theorem listMax_mem (l : List ℚ) (h : l ≠ []) : listMax l ∈ l := by
  cases l with
  | nil => exact absurd rfl h
  | cons a t =>
    have hstep : listMax (a :: t) = t.foldl max a := rfl
    rcases foldl_max_mem a t with h1 | h1
    · rw [hstep, h1]; exact List.mem_cons_self a t
    · rw [hstep]; exact List.mem_cons_of_mem a h1

theorem scale_val_nonneg (l : List ℚ) (x : ℚ) (hx : x ∈ l) : 0 ≤ scale_val l x := by
  unfold scale_val
  have hmn : listMin l ≤ x := listMin_le_of_mem x l hx
  have hmx : x ≤ listMax l := le_listMax_of_mem x l hx
  by_cases h : listMax l - listMin l = 0
  · rw [if_pos h, div_one]
    linarith
  · rw [if_neg h]
    have hpos : 0 < listMax l - listMin l := lt_of_le_of_ne (by linarith) (Ne.symm h)
    exact div_nonneg (by linarith) (le_of_lt hpos)

theorem scale_val_le_one (l : List ℚ) (x : ℚ) (hx : x ∈ l) : scale_val l x ≤ 1 := by
  unfold scale_val
  have hmn : listMin l ≤ x := listMin_le_of_mem x l hx
  have hmx : x ≤ listMax l := le_listMax_of_mem x l hx
  by_cases h : listMax l - listMin l = 0
  · rw [if_pos h, div_one]
    linarith
  · rw [if_neg h]
    have hpos : 0 < listMax l - listMin l := lt_of_le_of_ne (by linarith) (Ne.symm h)
    rw [div_le_one hpos]
    linarith

theorem scale_val_at_listMin (l : List ℚ) : scale_val l (listMin l) = 0 := by
  unfold scale_val
  simp

theorem scale_val_at_listMax (l : List ℚ) (h : listMax l - listMin l ≠ 0) :
    scale_val l (listMax l) = 1 := by
  unfold scale_val
  rw [if_neg h]
  exact div_self h

theorem nonconstant_range_ne_zero (l : List ℚ) (a b : ℚ) (ha : a ∈ l) (hb : b ∈ l)
    (hab : a ≠ b) : listMax l - listMin l ≠ 0 := by
  intro h
  have h1 : listMin l ≤ a := listMin_le_of_mem a l ha
  have h2 : a ≤ listMax l := le_listMax_of_mem a l ha
  have h3 : listMin l ≤ b := listMin_le_of_mem b l hb
  have h4 : b ≤ listMax l := le_listMax_of_mem b l hb
  exact hab (by linarith)

theorem mem_x_col_population (x : Nat → Nat → Nat → Nat → ℚ)
    (num height width : Nat) (c : Nat) (v : ℚ) :
    v ∈ x_col_population x num height width c ↔
      ∃ n, n < num ∧ ∃ i, i < height ∧ ∃ j, j < width ∧ x n i j c = v := by
  simp only [x_col_population, List.mem_flatMap, List.mem_map, List.mem_range]

theorem mem_y_col_population (y : Nat → Nat → Nat → Nat → Nat → ℚ)
    (num tsteps : Nat) (i j c : Nat) (v : ℚ) :
    v ∈ y_col_population y num tsteps i j c ↔
      ∃ n, n < num ∧ ∃ t, t < tsteps ∧ y n t i j c = v := by
  simp only [y_col_population, List.mem_flatMap, List.mem_map, List.mem_range]

theorem rot90k_apply (d k : Nat) (a : Nat → Nat → ℚ) (i j : Nat) :
    rot90k d k a i j =
      a ((rotSource d)^[k] (i, j)).1 ((rotSource d)^[k] (i, j)).2 := by
  induction k generalizing a with
  | zero => rfl
  | succ n ih =>
    have h1 : rot90k d (n + 1) a = rot90k d n (rot90 d a) :=
      Function.iterate_succ_apply (rot90 d) n a
    rw [h1, ih (rot90 d a), Function.iterate_succ_apply']
    rfl

theorem make_model_frames_eq (preAct : Nat → Nat → Nat → Nat → ℝ) :
    make_model_frames preAct =
      [fun i j c => sigmoid (preAct 0 i j c), fun i j c => sigmoid (preAct 1 i j c),
       fun i j c => sigmoid (preAct 2 i j c), fun i j c => sigmoid (preAct 3 i j c),
       fun i j c => sigmoid (preAct 4 i j c), fun i j c => sigmoid (preAct 5 i j c),
       fun i j c => sigmoid (preAct 6 i j c), fun i j c => sigmoid (preAct 7 i j c),
       fun i j c => sigmoid (preAct 8 i j c), fun i j c => sigmoid (preAct 9 i j c),
       fun i j c => sigmoid (preAct 10 i j c)] := rfl

theorem make_model_frames_bounds (preAct : Nat → Nat → Nat → Nat → ℝ)
    (f : Frame) (hf : f ∈ make_model_frames preAct) (i j c : Nat) :
    0 ≤ f i j c ∧ f i j c ≤ 1 := by
  rw [make_model_frames_eq] at hf
  simp only [List.mem_cons, List.not_mem_nil, or_false] at hf
  rcases hf with rfl | rfl | rfl | rfl | rfl | rfl | rfl | rfl | rfl | rfl | rfl <;>
    exact ⟨sigmoid_nonneg _, sigmoid_le_one _⟩

theorem load_samples_error {A B : Type} (xfiles : Nat → Option A)
    (yfiles : Nat → Option B) (L : List Nat) (i : Nat) (hi : i ∈ L)
    (hmiss : xfiles i = none ∨ yfiles i = none) :
    ∃ e, load_samples xfiles yfiles L = Except.error e := by
  induction L with
  | nil => cases hi
  | cons j rest ih =>
    rcases List.mem_cons.1 hi with h | h
    · subst h
      rcases hmiss with hm | hm
      · exact ⟨i, by simp [load_samples, np_load, hm]⟩
      · cases hx : xfiles i with
        | none => exact ⟨i, by simp [load_samples, np_load, hx]⟩
        | some a => exact ⟨i, by simp [load_samples, np_load, hx, hm]⟩
    · cases hx : xfiles j with
      | none => exact ⟨j, by simp [load_samples, np_load, hx]⟩
      | some a =>
        cases hy : yfiles j with
        | none => exact ⟨j, by simp [load_samples, np_load, hx, hy]⟩
        | some b =>
          obtain ⟨e, he⟩ := ih h
          exact ⟨e, by simp [load_samples, np_load, hx, hy, he]⟩

theorem convex_blend_bounds (a b t : ℚ) (h0 : 0 ≤ t) (h1 : t ≤ 1) :
    min a b ≤ t * a + (1 - t) * b ∧ t * a + (1 - t) * b ≤ max a b := by
  rcases le_total a b with h | h
  · rw [min_eq_left h, max_eq_right h]
    constructor <;> nlinarith
  · rw [min_eq_right h, max_eq_left h]
    constructor <;> nlinarith

/-! ### Claim theorems -/

/-- C1: for every batch of shape (N,64,64,4), the composite model built by
make_model (three encoder_layer stages followed by eleven recurrent_decoder
invocations) outputs shape exactly (N,11,64,64,2), and every output value
lies in [0,1], the final per-step activation being a sigmoid. -/
theorem C1_model_output_shape_and_range (N : Nat)
    (preAct : Nat → Nat → Nat → Nat → ℝ) :
    make_model_batch_shape N ⟨64, 64, 4⟩ = (N, ⟨11, 64, 64, 2⟩) ∧
    (make_model_frames preAct).length = 11 ∧
    ∀ (t : Fin (make_model_frames preAct).length) (i j c : Nat),
      0 ≤ (make_model_frames preAct).get t i j c ∧
        (make_model_frames preAct).get t i j c ≤ 1 := by
  refine ⟨rfl, rfl, ?_⟩
  intro t i j c
  exact make_model_frames_bounds preAct ((make_model_frames preAct).get t)
    (List.get_mem _ t.1 t.2) i j c

/-- C2: the timestep-subsampling index adjustment keeps the first index and
subtracts one from every subsequent index; for the configured
t_samples = [0,6,...,60] the selected indices are exactly [0,5,11,...,59]. -/
theorem C2_timestep_index_shift :
    (∀ (a : Int) (rest : List Int),
      shift_t_samples (a :: rest) = a :: rest.map (fun x => x - 1)) ∧
    shift_t_samples t_samples = [0, 5, 11, 17, 23, 29, 35, 41, 47, 53, 59] :=
  ⟨fun _ _ => rfl, by decide⟩

/-- C3: for every input array and every noise mode, apply_noise leaves the
last (well-location) channel identical to the input, while every channel
below it receives its own independently applied random_noise call; the two
mode branches differ only in whether var is passed. -/
theorem C3_noise_preserves_well_channel (channels : Nat) (noise_type : String)
    (var : ℚ)
    (rn : Nat → Nat → String → Option ℚ → (Nat → Nat → ℚ) → (Nat → Nat → ℚ))
    (image_array : Nat → Nat → Nat → Nat → ℚ) :
    (∀ i r s, apply_noise channels noise_type var rn image_array i r s
        (channels - 1) = image_array i r s (channels - 1)) ∧
    (∀ i r s c, c < channels - 1 →
      apply_noise channels noise_type var rn image_array i r s c =
        if noise_type = "gaussian" ∨ noise_type = "speckle" then
          rn i c noise_type (some var) (fun p q => image_array i p q c) r s
        else rn i c noise_type none (fun p q => image_array i p q c) r s) := by
  constructor
  · intro i r s
    simp [apply_noise]
  · intro i r s c hc
    have hne : c ≠ channels - 1 := Nat.ne_of_lt hc
    simp [apply_noise, hne]

/-- A concrete noise model used by the C3 witness. -/
def rn_const : Nat → Nat → String → Option ℚ → (Nat → Nat → ℚ) → Nat → Nat → ℚ :=
  fun _ _ _ _ _ _ _ => 7

/-- A concrete image array used by the C3 witness. -/
def img_chan : Nat → Nat → Nat → Nat → ℚ := fun _ _ _ c => c

/-- Witness for C3 at channels = 4, gaussian mode, a concrete array. -/
theorem C3_noise_preserves_well_channel_witness :
    (0 : Nat) < 4 - 1 ∧
    apply_noise 4 "gaussian" (1 / 1000000) rn_const img_chan 0 5 9 0 =
      (if ("gaussian" = "gaussian" ∨ "gaussian" = "speckle") then
        rn_const 0 0 "gaussian" (some (1 / 1000000))
          (fun p q => img_chan 0 p q 0) 5 9
      else rn_const 0 0 "gaussian" none (fun p q => img_chan 0 p q 0) 5 9) :=
  ⟨by decide,
    (C3_noise_preserves_well_channel 4 "gaussian" (1 / 1000000)
      rn_const img_chan).2 0 5 9 0 (by decide)⟩

/-- A concrete target tensor (num=2, tsteps=1, height=1, width=2, channels=1)
distinguishing the normalization the code performs from per-channel
normalization. -/
def y_ce : Nat → Nat → Nat → Nat → Nat → ℚ :=
  fun n _ _ j _ => if n = 0 then 0 else if j = 0 then 1 else 2

/-- Counterexample to C4 as stated: target normalization in process_data is
not per-channel min-max over the full flattened pixel population. On y_ce
the code (fit on the reshape to (num*tsteps, -1), i.e. per pixel-position
column) scales the entry (n=1,t=0,i=0,j=0,c=0) to 1, while per-channel
scaling over the whole channel population would give 1/2. -/
theorem C4_counterexample_y_not_per_channel :
    y_norm y_ce 2 1 1 0 0 0 0 ≠ y_norm_spec_per_channel y_ce 2 1 1 2 1 0 0 0 0 ∧
    y_norm y_ce 2 1 1 0 0 0 0 = 1 ∧
    y_norm_spec_per_channel y_ce 2 1 1 2 1 0 0 0 0 = 1 / 2 := by
  refine ⟨?_, ?_, ?_⟩ <;>
    norm_num [y_norm, y_norm_spec_per_channel, y_col_population,
      y_channel_population, y_ce, scale_val, listMin, listMax, List.range_succ]

/-- C4 amended: normalization is min-max scaling; the static inputs are
scaled per channel over the full flattened pixel population (reshape to
(num*height*width, channels)), while the targets are scaled per
(pixel-position, channel) column over all samples and timesteps (reshape to
(num*tsteps, -1)); every normalized value lies in [0,1], and each fitted
column attains 0 and 1 at least once unless that column is constant. -/
theorem C4_amended_minmax_normalization (x : Nat → Nat → Nat → Nat → ℚ)
    (y : Nat → Nat → Nat → Nat → Nat → ℚ) (num height width tsteps : Nat) :
    (∀ n i j c, n < num → i < height → j < width →
      0 ≤ x_norm x num height width n i j c ∧
        x_norm x num height width n i j c ≤ 1) ∧
    (∀ n t i j c, n < num → t < tsteps →
      0 ≤ y_norm y num tsteps n t i j c ∧ y_norm y num tsteps n t i j c ≤ 1) ∧
    (∀ c, (∃ a ∈ x_col_population x num height width c,
            ∃ b ∈ x_col_population x num height width c, a ≠ b) →
      (∃ n, n < num ∧ ∃ i, i < height ∧ ∃ j, j < width ∧
        x_norm x num height width n i j c = 0) ∧
      (∃ n, n < num ∧ ∃ i, i < height ∧ ∃ j, j < width ∧
        x_norm x num height width n i j c = 1)) ∧
    (∀ i j c, (∃ a ∈ y_col_population y num tsteps i j c,
            ∃ b ∈ y_col_population y num tsteps i j c, a ≠ b) →
      (∃ n, n < num ∧ ∃ t, t < tsteps ∧ y_norm y num tsteps n t i j c = 0) ∧
      (∃ n, n < num ∧ ∃ t, t < tsteps ∧ y_norm y num tsteps n t i j c = 1)) := by
  refine ⟨?_, ?_, ?_, ?_⟩
  · intro n i j c hn hi hj
    have hmem : x n i j c ∈ x_col_population x num height width c :=
      (mem_x_col_population x num height width c (x n i j c)).2
        ⟨n, hn, i, hi, j, hj, rfl⟩
    exact ⟨scale_val_nonneg _ _ hmem, scale_val_le_one _ _ hmem⟩
  · intro n t i j c hn ht
    have hmem : y n t i j c ∈ y_col_population y num tsteps i j c :=
      (mem_y_col_population y num tsteps i j c (y n t i j c)).2 ⟨n, hn, t, ht, rfl⟩
    exact ⟨scale_val_nonneg _ _ hmem, scale_val_le_one _ _ hmem⟩
  · intro c hnc
    obtain ⟨a, ha, b, hb, hab⟩ := hnc
    have hne : x_col_population x num height width c ≠ [] := by
      intro hnil
      rw [hnil] at ha
      cases ha
    have hrng : listMax (x_col_population x num height width c) -
        listMin (x_col_population x num height width c) ≠ 0 :=
      nonconstant_range_ne_zero _ a b ha hb hab
    constructor
    · obtain ⟨n, hn, i, hi, j, hj, hv⟩ :=
        (mem_x_col_population x num height width c _).1 (listMin_mem _ hne)
      refine ⟨n, hn, i, hi, j, hj, ?_⟩
      unfold x_norm
      rw [hv, scale_val_at_listMin]
    · obtain ⟨n, hn, i, hi, j, hj, hv⟩ :=
        (mem_x_col_population x num height width c _).1 (listMax_mem _ hne)
      refine ⟨n, hn, i, hi, j, hj, ?_⟩
      unfold x_norm
      rw [hv, scale_val_at_listMax _ hrng]
  · intro i j c hnc
    obtain ⟨a, ha, b, hb, hab⟩ := hnc
    have hne : y_col_population y num tsteps i j c ≠ [] := by
      intro hnil
      rw [hnil] at ha
      cases ha
    have hrng : listMax (y_col_population y num tsteps i j c) -
        listMin (y_col_population y num tsteps i j c) ≠ 0 :=
      nonconstant_range_ne_zero _ a b ha hb hab
    constructor
    · obtain ⟨n, hn, t, ht, hv⟩ :=
        (mem_y_col_population y num tsteps i j c _).1 (listMin_mem _ hne)
      refine ⟨n, hn, t, ht, ?_⟩
      unfold y_norm
      rw [hv, scale_val_at_listMin]
    · obtain ⟨n, hn, t, ht, hv⟩ :=
        (mem_y_col_population y num tsteps i j c _).1 (listMax_mem _ hne)
      refine ⟨n, hn, t, ht, ?_⟩
      unfold y_norm
      rw [hv, scale_val_at_listMax _ hrng]

/-- Witness for C4 amended, on the concrete tensor y_ce. -/
theorem C4_amended_minmax_normalization_witness :
    ((1 : Nat) < 2 ∧ (0 : Nat) < 1) ∧
    (0 ≤ y_norm y_ce 2 1 1 0 0 0 0 ∧ y_norm y_ce 2 1 1 0 0 0 0 ≤ 1) :=
  ⟨⟨by decide, by decide⟩,
    (C4_amended_minmax_normalization (fun _ _ _ _ => 0) y_ce 2 1 2 1).2.1
      1 0 0 0 0 (by decide) (by decide)⟩

/-- C5: the training criterion is a scalar convex blend of mean-absolute-error
and mean-squared-error with configurable blend fraction, optionally augmented
with an L2 weight penalty: with the penalty coefficient zero the loss is the
bare blend and lies between the two errors, and in general it is the blend
plus the ridge term. (custom_loss is modelled from the spec; see its doc.) -/
theorem C5_custom_loss_convex_blend (split alpha : ℚ) (weights ytrue ypred : List ℚ)
    (h0 : 0 ≤ split) (h1 : split ≤ 1) :
    custom_loss split alpha weights ytrue ypred =
      split * mae ytrue ypred + (1 - split) * mse ytrue ypred +
        alpha * (weights.map (fun w => w ^ 2)).sum ∧
    custom_loss split 0 weights ytrue ypred =
      split * mae ytrue ypred + (1 - split) * mse ytrue ypred ∧
    min (mae ytrue ypred) (mse ytrue ypred) ≤ custom_loss split 0 weights ytrue ypred ∧
    custom_loss split 0 weights ytrue ypred ≤ max (mae ytrue ypred) (mse ytrue ypred) := by
  have hblend := convex_blend_bounds (mae ytrue ypred) (mse ytrue ypred) split h0 h1
  have hz : custom_loss split 0 weights ytrue ypred =
      split * mae ytrue ypred + (1 - split) * mse ytrue ypred := by
    unfold custom_loss
    ring
  exact ⟨rfl, hz, by rw [hz]; exact hblend.1, by rw [hz]; exact hblend.2⟩

/-- Witness for C5 at the configured L1L2_split = 0.33, ridge_alpha = 0.66. -/
theorem C5_custom_loss_convex_blend_witness :
    ((0 : ℚ) ≤ 33 / 100 ∧ (33 : ℚ) / 100 ≤ 1) ∧
    custom_loss (33 / 100) (66 / 100) [1] [1, 2] [0, 1] =
      33 / 100 * mae [1, 2] [0, 1] + (1 - 33 / 100) * mse [1, 2] [0, 1] +
        66 / 100 * (([1] : List ℚ).map (fun w => w ^ 2)).sum :=
  ⟨⟨by norm_num, by norm_num⟩,
    (C5_custom_loss_convex_blend (33 / 100) (66 / 100) [1] [1, 2] [0, 1]
      (by norm_num) (by norm_num)).1⟩

/-- C6: SqueezeExcite returns input + gate*input where the gate is a
per-channel sigmoid activation, hence lies in [0,1]; the scaling is
additive-residual, and the output shape equals the input shape. -/
theorem C6_squeeze_excite_residual_gate (H W channels ratio : Nat)
    (w1 : Nat → Nat → ℝ) (b1 : Nat → ℝ) (w2 : Nat → Nat → ℝ) (b2 : Nat → ℝ)
    (inp : Nat → Nat → Nat → ℝ) :
    (∀ i j c, squeezeExcite_call H W channels ratio w1 b1 w2 b2 inp i j c =
      inp i j c +
        squeezeExcite_gate H W channels ratio w1 b1 w2 b2 inp c * inp i j c) ∧
    (∀ c, 0 ≤ squeezeExcite_gate H W channels ratio w1 b1 w2 b2 inp c ∧
      squeezeExcite_gate H W channels ratio w1 b1 w2 b2 inp c ≤ 1) ∧
    (∀ s : Shape3, squeezeExcite_shape s = s) := by
  refine ⟨?_, ?_, fun _ => rfl⟩
  · intro i j c
    unfold squeezeExcite_call
    ring
  · intro c
    unfold squeezeExcite_gate dense
    exact ⟨sigmoid_nonneg _, sigmoid_le_one _⟩

/-- C7: augmentation doubles the corpus, appending exactly one np.rot90 copy
(same k) of every sample; the rotation acts on the spatial axes of inputs
and targets with the same k, and a rotated input and its rotated target read
their values from the same source pixel, preserving correspondence. -/
theorem C7_augmentation_doubles_and_corresponds (d rotations : Nat)
    (xs : List (Nat → Nat → Nat → ℚ)) (ys : List (Nat → Nat → Nat → Nat → ℚ)) :
    ((process_augment d rotations xs ys).1.length = 2 * xs.length ∧
     (process_augment d rotations xs ys).2.length = 2 * ys.length) ∧
    (∀ i, i < xs.length →
      (process_augment d rotations xs ys).1[i]? = xs[i]?) ∧
    (∀ i, i < ys.length →
      (process_augment d rotations xs ys).2[i]? = ys[i]?) ∧
    (∀ i, (process_augment d rotations xs ys).1[xs.length + i]? =
      (xs[i]?).map (rot90k_x d rotations)) ∧
    (∀ i, (process_augment d rotations xs ys).2[ys.length + i]? =
      (ys[i]?).map (rot90k_y d rotations)) ∧
    (∀ (a : Nat → Nat → Nat → ℚ) (b : Nat → Nat → Nat → Nat → ℚ) (t i j c : Nat),
      rot90k_x d rotations a i j c =
        a ((rotSource d)^[rotations] (i, j)).1 ((rotSource d)^[rotations] (i, j)).2 c ∧
      rot90k_y d rotations b t i j c =
        b t ((rotSource d)^[rotations] (i, j)).1 ((rotSource d)^[rotations] (i, j)).2 c) := by
  refine ⟨⟨?_, ?_⟩, ?_, ?_, ?_, ?_, ?_⟩
  · simp [process_augment, augment_x, Nat.two_mul]
  · simp [process_augment, augment_y, Nat.two_mul]
  · intro i hi
    simp [process_augment, augment_x, List.getElem?_append_left hi]
  · intro i hi
    simp [process_augment, augment_y, List.getElem?_append_left hi]
  · intro i
    have h : (augment_x d rotations xs)[xs.length + i]? =
        (xs.map (rot90k_x d rotations))[i]? := by
      unfold augment_x
      rw [List.getElem?_append_right (Nat.le_add_right xs.length i)]
      congr 1
      omega
    simpa [process_augment, List.getElem?_map] using h
  · intro i
    have h : (augment_y d rotations ys)[ys.length + i]? =
        (ys.map (rot90k_y d rotations))[i]? := by
      unfold augment_y
      rw [List.getElem?_append_right (Nat.le_add_right ys.length i)]
      congr 1
      omega
    simpa [process_augment, List.getElem?_map] using h
  · intro a b t i j c
    exact ⟨rot90k_apply d rotations (fun p q => a p q c) i j,
      rot90k_apply d rotations (fun p q => b t p q c) i j⟩

/-- A concrete input sample for the C7 witness. -/
def x_sample0 : Nat → Nat → Nat → ℚ := fun i j c => (i : ℚ) + j + c

/-- Witness for C7: one sample, one rotation, spatial grid 2. -/
theorem C7_augmentation_doubles_and_corresponds_witness :
    (0 : Nat) < 1 ∧
    (process_augment 2 1 [x_sample0] []).1[0]? = [x_sample0][0]? :=
  ⟨by decide,
    (C7_augmentation_doubles_and_corresponds 2 1 [x_sample0] []).2.1 0 (by decide)⟩

/-- C8: when the feature or target file of some sample index is missing,
load_data fails with an error instead of returning a dataset (where the
preallocated zeros would stand in for the missing sample). -/
theorem C8_load_data_fails_on_missing {A B : Type} (n i : Nat)
    (xfiles : Nat → Option A) (yfiles : Nat → Option B) (hi : i < n)
    (hmiss : xfiles i = none ∨ yfiles i = none) :
    (∃ e, load_data n xfiles yfiles = Except.error e) ∧
    ∀ l, load_data n xfiles yfiles ≠ Except.ok l := by
  have herr : ∃ e, load_data n xfiles yfiles = Except.error e :=
    load_samples_error xfiles yfiles (List.range n) i (List.mem_range.2 hi) hmiss
  refine ⟨herr, ?_⟩
  intro l hok
  obtain ⟨e, he⟩ := herr
  rw [hok] at he
  cases he

/-- Witness for C8: two samples, the target file of sample 1 missing. -/
theorem C8_load_data_fails_on_missing_witness :
    ((1 : Nat) < 2 ∧ ((fun _ : Nat => (none : Option Nat)) 1 = none ∨
        (fun _ : Nat => (some 5 : Option Nat)) 1 = none)) ∧
    ∃ e, load_data 2 (fun _ : Nat => (none : Option Nat))
        (fun _ : Nat => (some 5 : Option Nat)) = Except.error e :=
  ⟨⟨by decide, Or.inl rfl⟩,
    (C8_load_data_fails_on_missing 2 1 (fun _ => none) (fun _ => some 5)
      (by decide) (Or.inl rfl)).1⟩

/-- C9: constructing a SpatiotemporalCO2 instance always raises
AttributeError: __init__ reads self.custom_loss, and no attribute or method
of that name is defined anywhere in the class, so construction never
succeeds (and no method is reachable on a constructed instance). -/
theorem C9_init_raises_attribute_error :
    spatiotemporalCO2_new = Except.error "AttributeError: custom_loss" ∧
    "custom_loss" ∉ spatiotemporalCO2_class_attrs ∧
    ∀ attrs, spatiotemporalCO2_new ≠ Except.ok attrs := by
  refine ⟨rfl, by decide, ?_⟩
  intro attrs hok
  have h : spatiotemporalCO2_new = Except.error "AttributeError: custom_loss" := rfl
  rw [hok] at h
  cases h

/-- C10: every encoder stage passes its filter count as the first positional
argument of SqueezeExcite, which is the reduction ratio, so the excite
bottleneck width is filt // filt = 1 at every stage, whatever positive
cnn_filters are configured. -/
theorem C10_excite_bottleneck_width :
    (∀ (filt : Nat) (s : Shape3), 0 < filt →
      encoder_layer_excite1_units filt s = 1) ∧
    ∀ s : Shape3, cnn_filters.map (fun f => encoder_layer_excite1_units f s) =
      [1, 1, 1] := by
  constructor
  · intro filt s hf
    exact Nat.div_self hf
  · intro s
    simp [cnn_filters, encoder_layer_excite1_units, squeezeExcite_excite1_units,
      squeezeExcite_init_ratio, separableConv2D_shape]

/-- Witness for C10 at the first configured stage (filt = 64). -/
theorem C10_excite_bottleneck_width_witness :
    (0 : Nat) < 64 ∧ encoder_layer_excite1_units 64 ⟨64, 64, 4⟩ = 1 :=
  ⟨by decide, C10_excite_bottleneck_width.1 64 ⟨64, 64, 4⟩ (by decide)⟩

end Pix2Vid
